import Mathlib

/-!
# Verification of the Anoma matchmaker node (`apps/src/lib/node/matchmaker.rs`)

A shallow embedding of the matchmaker's plugin-hosting and
result-orchestration engine:

* the Matching Loop (`Runner::listen` / `Runner::try_match_intent`), which
  loads the matching algorithm as a dylib, constructs its opaque state,
  feeds it inbound intents and forwards each `AddIntentResult` into an
  unbounded FIFO channel;
* the plugin wrapper teardown (`impl Drop for MatchmakerImpl`);
* the Result Pipeline (`ResultHandler::run` / `ResultHandler::submit_tx`),
  which drains the channel and turns each result into a ledger submission
  and/or a gossip announcement.

The embedding is a trace semantics: each Rust function becomes a Lean
function producing the ordered list of externally observable events it
performs, together with a flag recording whether it panicked (Rust
`unwrap` failures).  Foreign behaviour (the dylib's entry points, borsh
deserialization of `MatchedExchanges`, ledger RPC answers) is supplied as
explicit configuration so that the host code's control flow — the object
of the claims — is the only thing baked into the definitions.

Rust semantics reflected in the model:
* a panic unwinds the stack, running `Drop` implementations of live
  locals (so the `MatchmakerImpl` teardown runs on panic exit paths);
* `Drop::drop`'s body runs before the structure's fields are dropped, and
  fields are dropped in declaration order (`state` before `library`, as
  the `NOTE` in the source demands);
* `tokio::sync::mpsc::unbounded_channel` is a strictly FIFO
  single-producer/single-consumer queue: the receiver yields the sent
  values in send order, modelled as the ordered list of send events.
-/

/-- Byte sequences (`Vec<u8>`) modelled as lists of naturals. -/
abbrev Bytes := List Nat

/-- `AddIntentResult` (anoma::types::matchmaker): the outcome of one
`_add_intent` plugin call — an optional transaction payload and an
optional list of matched intent ids. -/
structure AddIntentResult where
  tx : Option Bytes
  matched_intents : Option (List Bytes)
deriving Repr, DecidableEq

/-- Observable events of the Matching Loop worker, in the order the code
performs them. -/
inductive RunnerEvent where
  /-- `new_matchmaker()` returned the handle `h` (`Runner::listen`). -/
  | construct (h : Nat)
  /-- `add_intent(handle, &intent_id, &intent_data)` was invoked
  (`Runner::try_match_intent`). -/
  | addIntentCall (h : Nat) (id : Bytes) (data : Bytes)
  /-- `result_send.send(result)` succeeded: one outcome entered the
  handoff channel. -/
  | sendOutcome (r : AddIntentResult)
  /-- `_drop_matchmaker(handle)` was invoked through the still-loaded
  library (`MatchmakerImpl::drop` body). -/
  | destroyCall (h : Nat)
  /-- The `state` field (`MatchmakerState`, the `Arc<*mut c_void>`) was
  dropped. -/
  | releaseState
  /-- The `library` field was dropped: the dylib was unloaded. -/
  | unloadLibrary
deriving Repr, DecidableEq

/-- Environment of one `Runner::listen` run: which dylib facts hold and
how the foreign code and the channel's receiver behave. -/
structure RunnerConfig where
  /-- `matchmaker_dylib.exists()`. -/
  fileExists : Bool
  /-- the `_new_matchmaker` symbol resolves. -/
  hasNewSym : Bool
  /-- the `_add_intent` symbol resolves. -/
  hasAddSym : Bool
  /-- the `_drop_matchmaker` symbol resolves. -/
  hasDropSym : Bool
  /-- The handle returned by `new_matchmaker()`; `0` models a null
  pointer. -/
  newMatchmaker : Nat
  /-- The dylib's `add_intent` behaviour: handle, intent id, intent
  payload to result. -/
  addIntent : Nat → Bytes → Bytes → AddIntentResult
  /-- Number of sends the channel's receiving end accepts before it is
  dropped (`none` = the receiver outlives the loop). -/
  recvCapacity : Option Nat

/-- Whether `result_send.send` succeeds after `sent` prior successful
sends: the unbounded channel only errors once the receiver was dropped. -/
def RunnerConfig.sendOk (cfg : RunnerConfig) (sent : Nat) : Bool :=
  match cfg.recvCapacity with
  | none => true
  | some n => sent < n

/-- One inbound gossip message, `MsgFromServer::AddIntent { id, data }`. -/
structure AddIntentMsg where
  id : Bytes
  data : Bytes
deriving Repr, DecidableEq

/-- `impl Drop for MatchmakerImpl`: the `drop` body resolves
`_drop_matchmaker` (panicking if it is missing) and calls it on the raw
state pointer; afterwards the fields drop in declaration order: `state`
first, then `library` (unloading the dylib).  Returns the teardown events
and whether the drop body panicked. -/
def matchmakerImplDrop (cfg : RunnerConfig) (h : Nat) :
    List RunnerEvent × Bool :=
  if cfg.hasDropSym then
    ([.destroyCall h, .releaseState, .unloadLibrary], false)
  else
    -- the `get(b"_drop_matchmaker").unwrap()` panics; fields still drop
    ([.releaseState, .unloadLibrary], true)

/-- The message loop inside `Runner::listen` (the closure given to
`listener.listen`), together with the drop of `MatchmakerImpl` on every
exit path.  `sent` counts successful sends so far.  Per message, the code
resolves `_add_intent` (panicking if missing), calls it, and `unwrap`s the
channel send (panicking if the receiver is gone); a panic unwinds, which
still drops `MatchmakerImpl`. -/
def runnerLoop (cfg : RunnerConfig) (h : Nat) (sent : Nat) :
    List AddIntentMsg → List RunnerEvent × Bool
  | [] =>
    -- stream ended: `listen` returns, `r#impl` is dropped
    matchmakerImplDrop cfg h
  | msg :: rest =>
    if cfg.hasAddSym then
      let result := cfg.addIntent h msg.id msg.data
      let callEv := RunnerEvent.addIntentCall h msg.id msg.data
      if cfg.sendOk sent then
        let next := runnerLoop cfg h (sent + 1) rest
        (callEv :: .sendOutcome result :: next.1, next.2)
      else
        -- `self.result_send.send(result).unwrap()` panics; unwind drops
        -- `r#impl`, no further message is processed
        (callEv :: (matchmakerImplDrop cfg h).1, true)
    else
      -- `r#impl.library.get(b"_add_intent").unwrap()` panics; unwind
      -- drops `r#impl`
      ((matchmakerImplDrop cfg h).1, true)

/-- `Runner::listen`: check the dylib file exists (panic otherwise), load
it, resolve `_new_matchmaker` (panic otherwise), call it — with no null
check on the returned handle — and enter the message loop.  Returns the
ordered trace of observable events and whether the worker thread
panicked. -/
def Runner.listen (cfg : RunnerConfig) (msgs : List AddIntentMsg) :
    List RunnerEvent × Bool :=
  if !cfg.fileExists then
    ([], true)
  else if !cfg.hasNewSym then
    ([], true)
  else
    let h := cfg.newMatchmaker
    let body := runnerLoop cfg h 0 msgs
    (.construct h :: body.1, body.2)

/-- The outcomes pushed into the handoff channel, in send order.  Because
the tokio unbounded channel is strictly FIFO, this list is exactly what
the `ResultHandler` receives, in order. -/
def sentOutcomes (evs : List RunnerEvent) : List AddIntentResult :=
  evs.filterMap fun e =>
    match e with
    | .sendOutcome r => some r
    | _ => none

/-! ## The Result Pipeline (`ResultHandler`) -/

/-- An Anoma address, kept abstract as a tag. -/
structure Address where
  tag : Nat
deriving Repr, DecidableEq

/-- `address::xan()`: the network's native token address. -/
def xan : Address := ⟨0⟩

/-- An ed25519 keypair, kept abstract as a tag. -/
structure Keypair where
  tag : Nat
deriving Repr, DecidableEq

/-- `MatchedExchanges`: the set of matched exchanges decoded from a
transaction payload.  Opaque to the host code, kept abstract as a tag. -/
structure MatchedExchanges where
  tag : Nat
deriving Repr, DecidableEq

/-- `IntentTransfers { matches, source }`: the intent-transfer transaction
body the pipeline wraps around the decoded matches. -/
structure IntentTransfers where
  matchedExchanges : MatchedExchanges
  source : Address
deriving Repr, DecidableEq

/-- `Fee { amount, token }` of a wrapper transaction. -/
structure Fee where
  amount : Nat
  token : Address
deriving Repr, DecidableEq

/-- `Tx::new(code, data)`: an inner transaction.  The borsh-serialized
`IntentTransfers` data is modelled structurally (borsh encoding is
injective, so keeping the structured value loses nothing). -/
structure Tx where
  code : Bytes
  data : Option IntentTransfers
deriving Repr, DecidableEq

/-- `Tx::sign(keypair)`: the signed inner transaction. -/
structure SignedTx where
  tx : Tx
  sigKey : Keypair
deriving Repr, DecidableEq

/-- `.sign(&self.tx_signing_key)` on an inner transaction. -/
def Tx.sign (t : Tx) (k : Keypair) : SignedTx := ⟨t, k⟩

/-- `WrapperTx::new(fee, keypair, epoch, gas_limit, tx)`. -/
structure WrapperTx where
  fee : Fee
  signKey : Keypair
  epoch : Nat
  gasLimit : Nat
  innerTx : SignedTx
deriving Repr, DecidableEq

/-- Observable effects of the Result Pipeline, in the order the code
performs them. -/
inductive HandlerEffect where
  /-- `result_recv.recv().await` yielded the outcome `r` from the FIFO
  channel. -/
  | received (r : AddIntentResult)
  /-- `broadcast_tx(ledger_address, tx, key)` was attempted once; `ok`
  records whether the ledger answered `Ok` (logged info) or `Err`
  (logged error, dropped). -/
  | submit (tx : WrapperTx) (ok : Bool)
  /-- `dialer.send(MsgFromClient::Matched { intent_ids })`. -/
  | announce (intent_ids : List Bytes)
deriving Repr, DecidableEq

/-- Environment of the `ResultHandler`: its configured fields plus the
behaviour of the external collaborators (borsh decoding of
`MatchedExchanges`, the ledger's epoch answers and broadcast results).
External answers are indexed by the number of prior submissions, so that
each submission's synchronous `query_epoch` is a distinct, fresh RPC. -/
structure HandlerConfig where
  /-- `tx_code` read from the wasm directory. -/
  txCode : Bytes
  /-- `tx_source_address`: the configured settlement source address. -/
  txSourceAddress : Address
  /-- `tx_signing_key`. -/
  txSigningKey : Keypair
  /-- `MatchedExchanges::try_from_slice`: `none` models a
  deserialization error (which the code `unwrap`s). -/
  deser : Bytes → Option MatchedExchanges
  /-- The epoch the ledger returns to the `q`-th `query_epoch` call. -/
  epochAt : Nat → Nat
  /-- Whether the `q`-th `broadcast_tx` call succeeds. -/
  broadcastOk : Nat → Bool

/-- `ResultHandler::submit_tx(tx_data)` after `q` prior submissions:
decode the payload (`try_from_slice(..).unwrap()` — a failure panics,
modelled as `none`), wrap it with the configured source address into an
`IntentTransfers` body, build the wrapper transaction with a zero fee in
the native token, the configured signing key, a freshly queried epoch, a
zero gas limit and the signed inner transaction over the configured code,
then broadcast it exactly once, logging either outcome. -/
def submit_tx (cfg : HandlerConfig) (q : Nat) (txData : Bytes) :
    Option HandlerEffect :=
  match cfg.deser txData with
  | none => none
  | some m =>
    let intentTransfers : IntentTransfers :=
      { matchedExchanges := m, source := cfg.txSourceAddress }
    let tx : WrapperTx :=
      { fee := { amount := 0, token := xan }
        signKey := cfg.txSigningKey
        epoch := cfg.epochAt q
        gasLimit := 0
        innerTx := (Tx.mk cfg.txCode (some intentTransfers)).sign
          cfg.txSigningKey }
    some (.submit tx (cfg.broadcastOk q))

/-- The announcement effects for one outcome: one `Matched` dialer send
if `matched_intents` is present, nothing otherwise. -/
def annEvs (r : AddIntentResult) : List HandlerEffect :=
  match r.matched_intents with
  | some ids => [.announce ids]
  | none => []

/-- The effects `ResultHandler::run` performs for one received outcome
(assuming no panic): a submission attempt if `tx` is present, then an
announcement if `matched_intents` is present. -/
def outcomeEffects (cfg : HandlerConfig) (q : Nat) (r : AddIntentResult) :
    List HandlerEffect :=
  (match r.tx with
   | some txData => (submit_tx cfg q txData).toList
   | none => []) ++
  annEvs r

/-- `ResultHandler::run`: drain the channel in FIFO order; per outcome,
submit the transaction if `tx` is present (a deserialization failure
inside `submit_tx` panics the task, so nothing later runs), then announce
the matched intent ids if present.  Returns the ordered effect trace and
whether the task panicked.  `q` counts submissions performed so far. -/
def runHandler (cfg : HandlerConfig) (q : Nat) :
    List AddIntentResult → List HandlerEffect × Bool
  | [] => ([], false)
  | r :: rest =>
    match r.tx with
    | some txData =>
      match submit_tx cfg q txData with
      | none =>
        -- `MatchedExchanges::try_from_slice(..).unwrap()` panicked
        ([.received r], true)
      | some eff =>
        let next := runHandler cfg (q + 1) rest
        (.received r :: eff :: annEvs r ++ next.1, next.2)
    | none =>
      let next := runHandler cfg q rest
      (.received r :: annEvs r ++ next.1, next.2)

/-- The outcomes the pipeline actually received from the channel, in
order. -/
def receivedOf (evs : List HandlerEffect) : List AddIntentResult :=
  evs.filterMap fun e =>
    match e with
    | .received r => some r
    | _ => none

/-- The submission attempts in an effect trace, in order. -/
def submitsOf (evs : List HandlerEffect) : List (WrapperTx × Bool) :=
  evs.filterMap fun e =>
    match e with
    | .submit tx ok => some (tx, ok)
    | _ => none

/-- The announcements in an effect trace, in order. -/
def announcesOf (evs : List HandlerEffect) : List (List Bytes) :=
  evs.filterMap fun e =>
    match e with
    | .announce ids => some ids
    | _ => none

/-! ## Event classifiers -/

/-- Is this event a `new_matchmaker()` call? -/
def isConstructEv : RunnerEvent → Bool
  | .construct _ => true
  | _ => false

/-- Is this event an `add_intent` plugin call? -/
def isAddCallEv : RunnerEvent → Bool
  | .addIntentCall _ _ _ => true
  | _ => false

/-- Is this event a `_drop_matchmaker` call? -/
def isDestroyEv : RunnerEvent → Bool
  | .destroyCall _ => true
  | _ => false

/-- Is this event the drop of the `MatchmakerState` field? -/
def isReleaseEv : RunnerEvent → Bool
  | .releaseState => true
  | _ => false

/-- Is this event the unload of the dylib? -/
def isUnloadEv : RunnerEvent → Bool
  | .unloadLibrary => true
  | _ => false

/-! ## Concrete sample environments (used to instantiate theorems) -/

/-- A sample plugin behaviour: echo the handle and id into the payload
and announce the data as a matched id. -/
def sampleAddIntent (h : Nat) (id : Bytes) (data : Bytes) :
    AddIntentResult :=
  ⟨some (h :: id), some [data]⟩

/-- A fully healthy runner environment: dylib present, all three symbols
resolvable, non-null handle, receiver never dropped. -/
def cfgOk : RunnerConfig :=
  { fileExists := true, hasNewSym := true, hasAddSym := true,
    hasDropSym := true, newMatchmaker := 7,
    addIntent := sampleAddIntent, recvCapacity := none }

/-- A runner environment whose dylib lacks the `_add_intent` symbol. -/
def cfgNoAddSym : RunnerConfig :=
  { cfgOk with hasAddSym := false }

/-- A runner environment whose `new_matchmaker` returns a null handle. -/
def cfgNullHandle : RunnerConfig :=
  { cfgOk with newMatchmaker := 0 }

/-- A runner environment whose channel receiver is dropped after
accepting one outcome. -/
def cfgRecvDrop : RunnerConfig :=
  { cfgOk with recvCapacity := some 1 }

/-- A healthy handler environment: every payload deserializes, epochs
increase per query, every broadcast succeeds. -/
def hcfgOk : HandlerConfig :=
  { txCode := [10], txSourceAddress := ⟨5⟩, txSigningKey := ⟨6⟩,
    deser := fun b => some ⟨b.length⟩,
    epochAt := fun q => 100 + q,
    broadcastOk := fun _ => true }

/-- A handler environment in which every payload fails borsh
deserialization. -/
def hcfgBadDeser : HandlerConfig :=
  { hcfgOk with deser := fun _ => none }

/-- A handler environment in which every broadcast fails. -/
def hcfgBadBroadcast : HandlerConfig :=
  { hcfgOk with broadcastOk := fun _ => false }

/-! ## Runner-side lemmas -/

theorem matchmakerImplDrop_eq (cfg : RunnerConfig) (h : Nat)
    (hdrop : cfg.hasDropSym = true) :
    matchmakerImplDrop cfg h =
      ([.destroyCall h, .releaseState, .unloadLibrary], false) := by
  simp [matchmakerImplDrop, hdrop]

/-- On every exit path of the message loop — normal stream end, missing
`_add_intent` symbol, failed channel send — the trace is some run of
`add_intent` calls and sends followed by the full teardown triple. -/
theorem runnerLoop_shape (cfg : RunnerConfig) (h : Nat)
    (hdrop : cfg.hasDropSym = true) (msgs : List AddIntentMsg) (sent : Nat) :
    ∃ body, (runnerLoop cfg h sent msgs).1 =
        body ++ [.destroyCall h, .releaseState, .unloadLibrary] ∧
      ∀ e ∈ body, (∃ id data, e = RunnerEvent.addIntentCall h id data) ∨
        ∃ r, e = RunnerEvent.sendOutcome r := by
  induction msgs generalizing sent with
  | nil =>
    refine ⟨[], ?_, by simp⟩
    simp [runnerLoop, matchmakerImplDrop_eq cfg h hdrop]
  | cons msg rest ih =>
    cases hadd : cfg.hasAddSym with
    | false =>
      refine ⟨[], ?_, by simp⟩
      simp [runnerLoop, hadd, matchmakerImplDrop_eq cfg h hdrop]
    | true =>
      cases hsend : cfg.sendOk sent with
      | false =>
        refine ⟨[.addIntentCall h msg.id msg.data], ?_, ?_⟩
        · simp [runnerLoop, hadd, hsend,
            matchmakerImplDrop_eq cfg h hdrop]
        · intro e he
          rcases List.mem_singleton.mp he with rfl
          exact Or.inl ⟨msg.id, msg.data, rfl⟩
      | true =>
        obtain ⟨body, hb, hmem⟩ := ih (sent + 1)
        refine ⟨.addIntentCall h msg.id msg.data ::
          .sendOutcome (cfg.addIntent h msg.id msg.data) :: body, ?_, ?_⟩
        · simp [runnerLoop, hadd, hsend, hb]
        · intro e he
          rcases List.mem_cons.mp he with rfl | he
          · exact Or.inl ⟨msg.id, msg.data, rfl⟩
          rcases List.mem_cons.mp he with rfl | he
          · exact Or.inr ⟨_, rfl⟩
          · exact hmem e he

/-- No event of a loop body (plugin calls and channel sends) is a
construct, destroy, release or unload event. -/
theorem body_countP_zero (body : List RunnerEvent)
    (hmem : ∀ e ∈ body,
      (∃ id data, e = RunnerEvent.addIntentCall h id data) ∨
      ∃ r, e = RunnerEvent.sendOutcome r) :
    body.countP isConstructEv = 0 ∧ body.countP isDestroyEv = 0 ∧
    body.countP isReleaseEv = 0 ∧ body.countP isUnloadEv = 0 := by
  refine ⟨?_, ?_, ?_, ?_⟩ <;>
    refine List.countP_eq_zero.mpr ?_ <;>
    intro e he <;>
    rcases hmem e he with ⟨id, data, rfl⟩ | ⟨r, rfl⟩ <;>
    simp [isConstructEv, isDestroyEv, isReleaseEv, isUnloadEv]

/-- C2: On every run of the Matching Loop whose dylib loads, whose
constructor symbol resolves and whose destructor symbol resolves, the
plugin constructor is called exactly once, as the very first event —
hence before the first `add_intent` call — and the plugin destructor is
called exactly once, in the closing teardown triple that follows every
other event — hence strictly after the last `add_intent` call.  This
holds on every exit path of the loop: when the listener stream ends
(including with zero intents) and when the loop body panics (missing
`_add_intent` symbol or failed channel send; the panic unwinds and drops
`MatchmakerImpl`). -/
theorem mm_C2_construct_destroy_pairing (cfg : RunnerConfig)
    (msgs : List AddIntentMsg) (hfile : cfg.fileExists = true)
    (hnew : cfg.hasNewSym = true) (hdrop : cfg.hasDropSym = true) :
    ∃ body, (Runner.listen cfg msgs).1 =
        .construct cfg.newMatchmaker :: body ++
          [.destroyCall cfg.newMatchmaker, .releaseState, .unloadLibrary] ∧
      (∀ e ∈ body,
        (∃ id data, e = RunnerEvent.addIntentCall cfg.newMatchmaker id data) ∨
        ∃ r, e = RunnerEvent.sendOutcome r) ∧
      ((Runner.listen cfg msgs).1).countP isConstructEv = 1 ∧
      ((Runner.listen cfg msgs).1).countP isDestroyEv = 1 := by
  obtain ⟨body, hb, hmem⟩ :=
    runnerLoop_shape cfg cfg.newMatchmaker hdrop msgs 0
  have hlst : (Runner.listen cfg msgs).1 =
      .construct cfg.newMatchmaker :: body ++
        [.destroyCall cfg.newMatchmaker, .releaseState, .unloadLibrary] := by
    simp [Runner.listen, hfile, hnew, hb]
  obtain ⟨hc, hd, _, _⟩ := body_countP_zero body hmem
  refine ⟨body, hlst, hmem, ?_, ?_⟩ <;>
    simp [hlst, List.countP_cons, List.countP_append, hc, hd,
      isConstructEv, isDestroyEv]

/-- C2 witness: the pairing at a concrete healthy environment with one
inbound intent. -/
theorem mm_C2_construct_destroy_pairing_witness :
    cfgOk.fileExists = true ∧ cfgOk.hasNewSym = true ∧
    cfgOk.hasDropSym = true ∧
    ∃ body, (Runner.listen cfgOk [⟨[1], [2]⟩]).1 =
        .construct cfgOk.newMatchmaker :: body ++
          [.destroyCall cfgOk.newMatchmaker, .releaseState, .unloadLibrary] ∧
      (∀ e ∈ body,
        (∃ id data,
          e = RunnerEvent.addIntentCall cfgOk.newMatchmaker id data) ∨
        ∃ r, e = RunnerEvent.sendOutcome r) ∧
      ((Runner.listen cfgOk [⟨[1], [2]⟩]).1).countP isConstructEv = 1 ∧
      ((Runner.listen cfgOk [⟨[1], [2]⟩]).1).countP isDestroyEv = 1 :=
  ⟨rfl, rfl, rfl,
    mm_C2_construct_destroy_pairing cfgOk [⟨[1], [2]⟩] rfl rfl rfl⟩

/-- C10: On every run of the Matching Loop that loads the plugin (and
whose destructor symbol resolves), the teardown order holds: the
destructor entry point is invoked through the still-loaded library, the
opaque state is released next, and the dynamic library is unloaded last —
each exactly once, as the final three events of the trace, on every exit
path (so on every drop of the `MatchmakerImpl` wrapper). -/
theorem mm_C10_teardown_order (cfg : RunnerConfig)
    (msgs : List AddIntentMsg) (hfile : cfg.fileExists = true)
    (hnew : cfg.hasNewSym = true) (hdrop : cfg.hasDropSym = true) :
    ((Runner.listen cfg msgs).1).countP isDestroyEv = 1 ∧
    ((Runner.listen cfg msgs).1).countP isReleaseEv = 1 ∧
    ((Runner.listen cfg msgs).1).countP isUnloadEv = 1 ∧
    (Runner.listen cfg msgs).1.drop ((Runner.listen cfg msgs).1.length - 3) =
      [.destroyCall cfg.newMatchmaker, .releaseState, .unloadLibrary] := by
  obtain ⟨body, hb, hmem⟩ :=
    runnerLoop_shape cfg cfg.newMatchmaker hdrop msgs 0
  have hlst : (Runner.listen cfg msgs).1 =
      (.construct cfg.newMatchmaker :: body) ++
        [.destroyCall cfg.newMatchmaker, .releaseState, .unloadLibrary] := by
    simp [Runner.listen, hfile, hnew, hb]
  obtain ⟨_, hd, hr, hu⟩ := body_countP_zero body hmem
  refine ⟨?_, ?_, ?_, ?_⟩
  · simp [hlst, List.countP_cons, List.countP_append, hd, isDestroyEv]
  · simp [hlst, List.countP_cons, List.countP_append, hr, isReleaseEv]
  · simp [hlst, List.countP_cons, List.countP_append, hu, isUnloadEv]
  · have hlen : (Runner.listen cfg msgs).1.length - 3 =
        (RunnerEvent.construct cfg.newMatchmaker :: body).length := by
      simp [hlst]
    rw [hlen, hlst, List.drop_left]

/-- C10 witness: the teardown order at a concrete healthy environment
with one inbound intent. -/
theorem mm_C10_teardown_order_witness :
    cfgOk.fileExists = true ∧ cfgOk.hasNewSym = true ∧
    cfgOk.hasDropSym = true ∧
    ((Runner.listen cfgOk [⟨[1], [2]⟩]).1).countP isDestroyEv = 1 ∧
    ((Runner.listen cfgOk [⟨[1], [2]⟩]).1).countP isReleaseEv = 1 ∧
    ((Runner.listen cfgOk [⟨[1], [2]⟩]).1).countP isUnloadEv = 1 ∧
    (Runner.listen cfgOk [⟨[1], [2]⟩]).1.drop
        ((Runner.listen cfgOk [⟨[1], [2]⟩]).1.length - 3) =
      [.destroyCall cfgOk.newMatchmaker, .releaseState, .unloadLibrary] :=
  ⟨rfl, rfl, rfl, mm_C10_teardown_order cfgOk [⟨[1], [2]⟩] rfl rfl rfl⟩

theorem sentOutcomes_cons (e : RunnerEvent) (evs : List RunnerEvent) :
    sentOutcomes (e :: evs) =
      (match e with | .sendOutcome r => [r] | _ => []) ++ sentOutcomes evs := by
  cases e <;> simp [sentOutcomes]

theorem sentOutcomes_matchmakerImplDrop (cfg : RunnerConfig) (h : Nat) :
    sentOutcomes (matchmakerImplDrop cfg h).1 = [] := by
  cases hd : cfg.hasDropSym <;> simp [matchmakerImplDrop, hd, sentOutcomes]

/-- When the `_add_intent` symbol resolves and the receiver outlives the
loop, the message loop sends exactly one outcome per message, in arrival
order: the plugin's result for that message. -/
theorem runnerLoop_sentOutcomes (cfg : RunnerConfig) (h : Nat)
    (hadd : cfg.hasAddSym = true) (hcap : cfg.recvCapacity = none)
    (msgs : List AddIntentMsg) (sent : Nat) :
    sentOutcomes (runnerLoop cfg h sent msgs).1 =
      msgs.map fun m => cfg.addIntent h m.id m.data := by
  induction msgs generalizing sent with
  | nil => simp [runnerLoop, sentOutcomes_matchmakerImplDrop]
  | cons msg rest ih =>
    have hsend : cfg.sendOk sent = true := by
      simp [RunnerConfig.sendOk, hcap]
    simp [runnerLoop, hadd, hsend, sentOutcomes_cons, ih (sent + 1)]

theorem receivedOf_cons (e : HandlerEffect) (evs : List HandlerEffect) :
    receivedOf (e :: evs) =
      (match e with | .received r => [r] | _ => []) ++ receivedOf evs := by
  cases e <;> simp [receivedOf]

theorem receivedOf_append (a b : List HandlerEffect) :
    receivedOf (a ++ b) = receivedOf a ++ receivedOf b := by
  simp [receivedOf, List.filterMap_append]

theorem receivedOf_annEvs (r : AddIntentResult) :
    receivedOf (annEvs r) = [] := by
  cases hm : r.matched_intents <;> simp [annEvs, hm, receivedOf]

/-- `submit_tx` on a payload that deserializes: exactly one broadcast
attempt of the wrapper transaction built from the configured fields and a
fresh epoch. -/
theorem submit_tx_eq_some (hcfg : HandlerConfig) (q : Nat) (d : Bytes)
    (m : MatchedExchanges) (hm : hcfg.deser d = some m) :
    submit_tx hcfg q d = some (.submit
      { fee := { amount := 0, token := xan }
        signKey := hcfg.txSigningKey
        epoch := hcfg.epochAt q
        gasLimit := 0
        innerTx := (Tx.mk hcfg.txCode
          (some ⟨m, hcfg.txSourceAddress⟩)).sign hcfg.txSigningKey }
      (hcfg.broadcastOk q)) := by
  simp [submit_tx, hm]

/-- When every present payload deserializes, the pipeline receives (and
hence processes) exactly the outcomes handed to it, in channel order. -/
theorem receivedOf_runHandler (hcfg : HandlerConfig)
    (outcomes : List AddIntentResult) (q : Nat)
    (hall : ∀ r ∈ outcomes,
      r.tx.all (fun d => (hcfg.deser d).isSome) = true) :
    receivedOf (runHandler hcfg q outcomes).1 = outcomes := by
  induction outcomes generalizing q with
  | nil => simp [runHandler, receivedOf]
  | cons r rest ih =>
    have hr := hall r (List.mem_cons_self r rest)
    have hrest := fun x hx => hall x (List.mem_cons_of_mem r hx)
    cases htx : r.tx with
    | none =>
      simp [runHandler, htx, receivedOf_cons, receivedOf_append,
        receivedOf_annEvs, ih q hrest]
    | some d =>
      rw [htx] at hr
      obtain ⟨m, hm⟩ := Option.isSome_iff_exists.mp (by simpa using hr)
      simp [runHandler, htx, submit_tx_eq_some hcfg q d m hm,
        receivedOf_cons, receivedOf_append, receivedOf_annEvs,
        ih (q + 1) hrest]

/-- C1: For every sequence of inbound `AddIntent` messages consumed by a
Matching Loop whose dylib and symbols load and whose receiver stays
alive, exactly one `MatchOutcome` is sent into the handoff channel per
message — the plugin's result for it — in arrival order; and the Result
Pipeline (when no outcome panics it) receives exactly those outcomes in
the same relative order, the channel being strictly FIFO. -/
theorem mm_C1_one_outcome_per_intent_fifo (cfg : RunnerConfig)
    (msgs : List AddIntentMsg) (hcfg : HandlerConfig)
    (hfile : cfg.fileExists = true) (hnew : cfg.hasNewSym = true)
    (hadd : cfg.hasAddSym = true) (hcap : cfg.recvCapacity = none)
    (hdeser : ∀ r ∈ sentOutcomes (Runner.listen cfg msgs).1,
      r.tx.all (fun d => (hcfg.deser d).isSome) = true) :
    sentOutcomes (Runner.listen cfg msgs).1 =
      (msgs.map fun m => cfg.addIntent cfg.newMatchmaker m.id m.data) ∧
    receivedOf
        (runHandler hcfg 0 (sentOutcomes (Runner.listen cfg msgs).1)).1 =
      sentOutcomes (Runner.listen cfg msgs).1 := by
  constructor
  · simp [Runner.listen, hfile, hnew, sentOutcomes_cons,
      runnerLoop_sentOutcomes cfg cfg.newMatchmaker hadd hcap msgs 0]
  · exact receivedOf_runHandler hcfg _ 0 hdeser

/-- C1 witness: two concrete intents through a healthy runner and
pipeline. -/
theorem mm_C1_one_outcome_per_intent_fifo_witness :
    cfgOk.fileExists = true ∧ cfgOk.hasNewSym = true ∧
    cfgOk.hasAddSym = true ∧ cfgOk.recvCapacity = none ∧
    (∀ r ∈ sentOutcomes (Runner.listen cfgOk [⟨[1], [2]⟩, ⟨[3], [4]⟩]).1,
      r.tx.all (fun d => (hcfgOk.deser d).isSome) = true) ∧
    (sentOutcomes (Runner.listen cfgOk [⟨[1], [2]⟩, ⟨[3], [4]⟩]).1 =
      (([⟨[1], [2]⟩, ⟨[3], [4]⟩] : List AddIntentMsg).map fun m =>
        cfgOk.addIntent cfgOk.newMatchmaker m.id m.data) ∧
    receivedOf (runHandler hcfgOk 0
        (sentOutcomes (Runner.listen cfgOk [⟨[1], [2]⟩, ⟨[3], [4]⟩]).1)).1 =
      sentOutcomes (Runner.listen cfgOk [⟨[1], [2]⟩, ⟨[3], [4]⟩]).1) :=
  ⟨rfl, rfl, rfl, rfl, by decide,
    mm_C1_one_outcome_per_intent_fifo cfgOk [⟨[1], [2]⟩, ⟨[3], [4]⟩] hcfgOk
      rfl rfl rfl rfl (by decide)⟩

theorem matchmakerImplDrop_countP_addCall (cfg : RunnerConfig) (h : Nat) :
    ((matchmakerImplDrop cfg h).1).countP isAddCallEv = 0 := by
  cases hd : cfg.hasDropSym <;>
    simp [matchmakerImplDrop, hd, isAddCallEv]

/-- If the receiver accepts only `n` sends and more messages arrive, the
loop panics on the `(n+1)`-st message's send: it performs exactly `n + 1`
plugin calls, delivers exactly `n` outcomes, and terminates. -/
theorem runnerLoop_recvDropped (cfg : RunnerConfig) (h n : Nat)
    (hadd : cfg.hasAddSym = true) (hcap : cfg.recvCapacity = some n)
    (msgs : List AddIntentMsg) (sent : Nat) (hle : sent ≤ n)
    (hlt : n < sent + msgs.length) :
    (runnerLoop cfg h sent msgs).2 = true ∧
    ((runnerLoop cfg h sent msgs).1).countP isAddCallEv = n - sent + 1 ∧
    (sentOutcomes (runnerLoop cfg h sent msgs).1).length = n - sent := by
  induction msgs generalizing sent with
  | nil => simp at hlt; omega
  | cons msg rest ih =>
    by_cases hs : sent < n
    · have hsend : cfg.sendOk sent = true := by
        simp [RunnerConfig.sendOk, hcap]; omega
      have hrec := ih (sent + 1) (by omega)
        (by simp at hlt ⊢; omega)
      refine ⟨?_, ?_, ?_⟩
      · simp [runnerLoop, hadd, hsend, hrec.1]
      · simp [runnerLoop, hadd, hsend, List.countP_cons, isAddCallEv,
          hrec.2.1]
        omega
      · simp [runnerLoop, hadd, hsend, sentOutcomes_cons, hrec.2.2]
        omega
    · have hsent : sent = n := by omega
      subst hsent
      have hsend : cfg.sendOk sent = false := by
        simp [RunnerConfig.sendOk, hcap]
      refine ⟨?_, ?_, ?_⟩
      · simp [runnerLoop, hadd, hsend]
      · simp [runnerLoop, hadd, hsend, List.countP_cons, isAddCallEv,
          matchmakerImplDrop_countP_addCall]
      · have hdrop0 := sentOutcomes_matchmakerImplDrop cfg h
        simp [runnerLoop, hadd, hsend, sentOutcomes_cons, hdrop0]

/-- C9: If the handoff channel's receiver has been dropped (it accepted
only `n < |msgs|` outcomes) when the loop attempts a send, the loop
treats this as fatal: the worker panics (`true` flag, which the driver
turns into a non-zero process exit), exactly `n + 1` intents were fed to
the plugin — none after the failed send — only `n` outcomes entered the
channel, and the teardown triple (plugin destruction) still runs at the
end of the trace. -/
theorem mm_C9_recv_dropped_fatal (cfg : RunnerConfig)
    (msgs : List AddIntentMsg) (n : Nat) (hfile : cfg.fileExists = true)
    (hnew : cfg.hasNewSym = true) (hadd : cfg.hasAddSym = true)
    (hdrop : cfg.hasDropSym = true) (hcap : cfg.recvCapacity = some n)
    (hlen : n < msgs.length) :
    (Runner.listen cfg msgs).2 = true ∧
    ((Runner.listen cfg msgs).1).countP isAddCallEv = n + 1 ∧
    (sentOutcomes (Runner.listen cfg msgs).1).length = n ∧
    ∃ pre, (Runner.listen cfg msgs).1 =
      pre ++ [.destroyCall cfg.newMatchmaker, .releaseState,
        .unloadLibrary] := by
  have hrun := runnerLoop_recvDropped cfg cfg.newMatchmaker n hadd hcap
    msgs 0 (Nat.zero_le n) (by omega)
  obtain ⟨body, hb, -⟩ :=
    runnerLoop_shape cfg cfg.newMatchmaker hdrop msgs 0
  refine ⟨?_, ?_, ?_, ?_⟩
  · simp [Runner.listen, hfile, hnew, hrun.1]
  · simp [Runner.listen, hfile, hnew, List.countP_cons, isAddCallEv]
    simpa using hrun.2.1
  · simp [Runner.listen, hfile, hnew, sentOutcomes_cons]
    simpa using hrun.2.2
  · exact ⟨.construct cfg.newMatchmaker :: body, by
      simp [Runner.listen, hfile, hnew, hb]⟩

/-- C9 witness: receiver accepts one outcome, three intents arrive. -/
theorem mm_C9_recv_dropped_fatal_witness :
    cfgRecvDrop.fileExists = true ∧ cfgRecvDrop.hasNewSym = true ∧
    cfgRecvDrop.hasAddSym = true ∧ cfgRecvDrop.hasDropSym = true ∧
    cfgRecvDrop.recvCapacity = some 1 ∧
    1 < ([⟨[1], [2]⟩, ⟨[3], [4]⟩, ⟨[5], [6]⟩] : List AddIntentMsg).length ∧
    ((Runner.listen cfgRecvDrop [⟨[1], [2]⟩, ⟨[3], [4]⟩, ⟨[5], [6]⟩]).2 =
        true ∧
      ((Runner.listen cfgRecvDrop
        [⟨[1], [2]⟩, ⟨[3], [4]⟩, ⟨[5], [6]⟩]).1).countP isAddCallEv = 2 ∧
      (sentOutcomes (Runner.listen cfgRecvDrop
        [⟨[1], [2]⟩, ⟨[3], [4]⟩, ⟨[5], [6]⟩]).1).length = 1 ∧
      ∃ pre, (Runner.listen cfgRecvDrop
          [⟨[1], [2]⟩, ⟨[3], [4]⟩, ⟨[5], [6]⟩]).1 =
        pre ++ [.destroyCall cfgRecvDrop.newMatchmaker, .releaseState,
          .unloadLibrary]) :=
  ⟨rfl, rfl, rfl, rfl, rfl, by decide,
    mm_C9_recv_dropped_fatal cfgRecvDrop
      [⟨[1], [2]⟩, ⟨[3], [4]⟩, ⟨[5], [6]⟩] 1 rfl rfl rfl rfl rfl
      (by decide)⟩

/-- C4 counterexample: with the `_add_intent` symbol unresolvable (all
else healthy), a run with zero intents completes without any failure at
all, and a run with one intent fails only during intent processing —
after the plugin was constructed — not at startup.  This refutes "any of
its three required entry-point symbols … fails fatally at startup,
before any intent is processed — … never a per-call error": the code
resolves `_add_intent` inside `try_match_intent`, per call. -/
theorem mm_C4_counterexample :
    (Runner.listen cfgNoAddSym []).2 = false ∧
    Runner.listen cfgNoAddSym [⟨[1], [2]⟩] =
      ([.construct 7, .destroyCall 7, .releaseState, .unloadLibrary],
        true) := by
  decide

/-- C4 amended: the absence of the module file, or an unresolvable
constructor symbol, is fatal at startup before any intent and before the
plugin is constructed; but the `_add_intent` symbol is resolved per
intent call — if it is unresolvable the loop still constructs the
plugin, fails fatally only when the first intent arrives (tearing the
plugin down on unwind), and never fails when zero intents arrive. -/
theorem mm_C4_amended_symbol_resolution (cfg : RunnerConfig) :
    (∀ msgs, cfg.fileExists = false → Runner.listen cfg msgs = ([], true)) ∧
    (∀ msgs, cfg.hasNewSym = false → Runner.listen cfg msgs = ([], true)) ∧
    (cfg.fileExists = true → cfg.hasNewSym = true →
      cfg.hasAddSym = false → cfg.hasDropSym = true →
      (Runner.listen cfg []).2 = false ∧
      ∀ msg rest, Runner.listen cfg (msg :: rest) =
        ([.construct cfg.newMatchmaker, .destroyCall cfg.newMatchmaker,
          .releaseState, .unloadLibrary], true)) := by
  refine ⟨?_, ?_, ?_⟩
  · intro msgs hf
    simp [Runner.listen, hf]
  · intro msgs hn
    cases hf : cfg.fileExists <;> simp [Runner.listen, hf, hn]
  · intro hfile hnew hadd hdrop
    constructor
    · simp [Runner.listen, hfile, hnew, runnerLoop,
        matchmakerImplDrop_eq cfg cfg.newMatchmaker hdrop]
    · intro msg rest
      simp [Runner.listen, hfile, hnew, runnerLoop, hadd,
        matchmakerImplDrop_eq cfg cfg.newMatchmaker hdrop]

/-- C4 witness: the amended behaviour at concrete environments. -/
theorem mm_C4_amended_symbol_resolution_witness :
    cfgNoAddSym.fileExists = true ∧ cfgNoAddSym.hasNewSym = true ∧
    cfgNoAddSym.hasAddSym = false ∧ cfgNoAddSym.hasDropSym = true ∧
    Runner.listen { cfgOk with fileExists := false } [⟨[1], [2]⟩] =
      ([], true) ∧
    Runner.listen { cfgOk with hasNewSym := false } [⟨[1], [2]⟩] =
      ([], true) ∧
    (Runner.listen cfgNoAddSym []).2 = false ∧
    Runner.listen cfgNoAddSym [⟨[1], [2]⟩] =
      ([.construct cfgNoAddSym.newMatchmaker,
        .destroyCall cfgNoAddSym.newMatchmaker, .releaseState,
        .unloadLibrary], true) :=
  ⟨rfl, rfl, rfl, rfl,
    (mm_C4_amended_symbol_resolution { cfgOk with fileExists := false }).1
      [⟨[1], [2]⟩] rfl,
    (mm_C4_amended_symbol_resolution { cfgOk with hasNewSym := false }).2.1
      [⟨[1], [2]⟩] rfl,
    ((mm_C4_amended_symbol_resolution cfgNoAddSym).2.2 rfl rfl rfl rfl).1,
    ((mm_C4_amended_symbol_resolution cfgNoAddSym).2.2 rfl rfl rfl rfl).2
      ⟨[1], [2]⟩ []⟩

/-- C5 counterexample: `new_matchmaker` returns a null handle (modelled
as `0`); the run neither detects it nor terminates — the flag is `false`
(no panic anywhere) and `add_intent` is invoked with the null handle.
This refutes "this is detected as fatal and the process terminates; no
`add_intent` call is ever made with a null handle": the code stores the
constructor's return value without any null check. -/
theorem mm_C5_counterexample :
    (Runner.listen cfgNullHandle [⟨[1], [2]⟩]).2 = false ∧
    RunnerEvent.addIntentCall 0 [1] [2] ∈
      (Runner.listen cfgNullHandle [⟨[1], [2]⟩]).1 := by
  decide

/-- In a healthy environment (symbols resolve, receiver alive) the loop
never panics and calls `add_intent` with the constructor's handle —
whatever that handle is — once per message. -/
theorem runnerLoop_healthy (cfg : RunnerConfig) (h : Nat)
    (hadd : cfg.hasAddSym = true) (hdrop : cfg.hasDropSym = true)
    (hcap : cfg.recvCapacity = none) (msgs : List AddIntentMsg)
    (sent : Nat) :
    (runnerLoop cfg h sent msgs).2 = false ∧
    ∀ m ∈ msgs, RunnerEvent.addIntentCall h m.id m.data ∈
      (runnerLoop cfg h sent msgs).1 := by
  induction msgs generalizing sent with
  | nil =>
    simp [runnerLoop, matchmakerImplDrop_eq cfg h hdrop]
  | cons msg rest ih =>
    have hsend : cfg.sendOk sent = true := by
      simp [RunnerConfig.sendOk, hcap]
    obtain ⟨ihp, ihm⟩ := ih (sent + 1)
    refine ⟨by simp [runnerLoop, hadd, hsend, ihp], ?_⟩
    intro m hm
    rcases List.mem_cons.mp hm with rfl | hm
    · simp [runnerLoop, hadd, hsend]
    · simp [runnerLoop, hadd, hsend]
      exact Or.inr (ihm m hm)

/-- C5 amended: the code performs no null check on the handle returned by
the plugin constructor.  A null handle is not detected and is not fatal:
the loop proceeds exactly as with any other handle, and every inbound
intent leads to an `add_intent` call carrying the null handle. -/
theorem mm_C5_amended_no_null_check (cfg : RunnerConfig)
    (msgs : List AddIntentMsg) (hfile : cfg.fileExists = true)
    (hnew : cfg.hasNewSym = true) (hadd : cfg.hasAddSym = true)
    (hdrop : cfg.hasDropSym = true) (hcap : cfg.recvCapacity = none)
    (hnull : cfg.newMatchmaker = 0) :
    (Runner.listen cfg msgs).2 = false ∧
    ∀ m ∈ msgs, RunnerEvent.addIntentCall 0 m.id m.data ∈
      (Runner.listen cfg msgs).1 := by
  obtain ⟨hp, hm⟩ := runnerLoop_healthy cfg cfg.newMatchmaker hadd hdrop
    hcap msgs 0
  rw [hnull] at hm
  constructor
  · simp [Runner.listen, hfile, hnew, hp]
  · intro m hmem
    simp [Runner.listen, hfile, hnew]
    rw [hnull]
    exact hm m hmem

/-- C5 witness: the null-handle run at a concrete environment. -/
theorem mm_C5_amended_no_null_check_witness :
    cfgNullHandle.fileExists = true ∧ cfgNullHandle.hasNewSym = true ∧
    cfgNullHandle.hasAddSym = true ∧ cfgNullHandle.hasDropSym = true ∧
    cfgNullHandle.recvCapacity = none ∧ cfgNullHandle.newMatchmaker = 0 ∧
    (Runner.listen cfgNullHandle [⟨[3], [4]⟩]).2 = false ∧
    RunnerEvent.addIntentCall 0 [3] [4] ∈
      (Runner.listen cfgNullHandle [⟨[3], [4]⟩]).1 :=
  ⟨rfl, rfl, rfl, rfl, rfl, rfl,
    (mm_C5_amended_no_null_check cfgNullHandle [⟨[3], [4]⟩]
      rfl rfl rfl rfl rfl rfl).1,
    (mm_C5_amended_no_null_check cfgNullHandle [⟨[3], [4]⟩]
      rfl rfl rfl rfl rfl rfl).2 ⟨[3], [4]⟩ (by decide)⟩

theorem submitsOf_cons (e : HandlerEffect) (evs : List HandlerEffect) :
    submitsOf (e :: evs) =
      (match e with | .submit tx ok => [(tx, ok)] | _ => []) ++
        submitsOf evs := by
  cases e <;> simp [submitsOf]

theorem submitsOf_append (a b : List HandlerEffect) :
    submitsOf (a ++ b) = submitsOf a ++ submitsOf b := by
  simp [submitsOf, List.filterMap_append]

theorem submitsOf_annEvs (r : AddIntentResult) :
    submitsOf (annEvs r) = [] := by
  cases hm : r.matched_intents <;> simp [annEvs, hm, submitsOf]

theorem announcesOf_cons (e : HandlerEffect) (evs : List HandlerEffect) :
    announcesOf (e :: evs) =
      (match e with | .announce ids => [ids] | _ => []) ++
        announcesOf evs := by
  cases e <;> simp [announcesOf]

theorem announcesOf_append (a b : List HandlerEffect) :
    announcesOf (a ++ b) = announcesOf a ++ announcesOf b := by
  simp [announcesOf, List.filterMap_append]

theorem announcesOf_annEvs (r : AddIntentResult) :
    announcesOf (annEvs r) =
      (match r.matched_intents with | some ids => [ids] | none => []) := by
  cases hm : r.matched_intents <;> simp [annEvs, hm, announcesOf]

/-- C3 counterexample: a first outcome whose payload fails to
deserialize, followed by an announce-only outcome.  The pipeline's whole
trace is just the reception of the first outcome — the failure is a
panic (`true`), not a logged drop, and the second outcome is never
received nor announced.  This refutes "only that one outcome is dropped:
the Result Pipeline continues and processes all subsequent outcomes". -/
theorem mm_C3_counterexample :
    runHandler hcfgBadDeser 0
        [⟨some [9], none⟩, ⟨none, some [[7]]⟩] =
      ([.received ⟨some [9], none⟩], true) := by
  decide

/-- C3 amended: a transaction payload that fails to deserialize is not
logged-and-dropped; the `unwrap` panics the Result Pipeline task.  The
failing outcome's announcement and every subsequent outcome in the
channel go unprocessed.  (Only broadcast failures are logged and
dropped.) -/
theorem mm_C3_amended_deser_panic (hcfg : HandlerConfig) (q : Nat)
    (r : AddIntentResult) (rest : List AddIntentResult) (d : Bytes)
    (htx : r.tx = some d) (hbad : hcfg.deser d = none) :
    runHandler hcfg q (r :: rest) = ([.received r], true) := by
  simp [runHandler, htx, submit_tx, hbad]

/-- C3 witness: the panic at a concrete input. -/
theorem mm_C3_amended_deser_panic_witness :
    (⟨some [9], some [[3]]⟩ : AddIntentResult).tx = some [9] ∧
    hcfgBadDeser.deser [9] = none ∧
    runHandler hcfgBadDeser 0
        [⟨some [9], some [[3]]⟩, ⟨none, some [[8]]⟩] =
      ([.received ⟨some [9], some [[3]]⟩], true) :=
  ⟨rfl, rfl,
    mm_C3_amended_deser_panic hcfgBadDeser 0 ⟨some [9], some [[3]]⟩
      [⟨none, some [[8]]⟩] [9] rfl rfl⟩

/-- C6 counterexample: an outcome with both fields present whose payload
fails to deserialize produces neither a submission attempt nor an
announcement (the task panics in between): "a gossip Matched
announcement occurs if and only if matched_intent_ids is present" fails,
as does "when both fields are present, both effects execute". -/
theorem mm_C6_counterexample :
    submitsOf (runHandler hcfgBadDeser 0 [⟨some [9], some [[7]]⟩]).1 =
        [] ∧
    announcesOf (runHandler hcfgBadDeser 0 [⟨some [9], some [[7]]⟩]).1 =
      [] := by
  decide

/-- C6 amended: for every received outcome whose transaction payload,
when present, deserializes successfully, a submission attempt occurs iff
`tx` is present and an announcement iff `matched_intents` is present;
when both are present both execute, submission first, then announcement,
neither gated on the other's outcome (the broadcast result is arbitrary
here); when both are absent the outcome contributes no effect; and the
remaining outcomes are processed unchanged afterwards. -/
theorem mm_C6_amended_effects_iff (hcfg : HandlerConfig) (q : Nat)
    (r : AddIntentResult) (rest : List AddIntentResult)
    (hdeser : r.tx.all (fun d => (hcfg.deser d).isSome) = true) :
    (runHandler hcfg q (r :: rest)).1 =
      .received r :: outcomeEffects hcfg q r ++
        (runHandler hcfg (q + if r.tx.isSome then 1 else 0) rest).1 ∧
    (runHandler hcfg q (r :: rest)).2 =
      (runHandler hcfg (q + if r.tx.isSome then 1 else 0) rest).2 ∧
    (submitsOf (outcomeEffects hcfg q r)).length =
      (if r.tx.isSome then 1 else 0) ∧
    announcesOf (outcomeEffects hcfg q r) =
      (match r.matched_intents with | some ids => [ids] | none => []) ∧
    outcomeEffects hcfg q r =
      (match r.tx with
       | some d => (submit_tx hcfg q d).toList
       | none => []) ++ annEvs r := by
  cases htx : r.tx with
  | none =>
    refine ⟨?_, ?_, ?_, ?_, ?_⟩ <;>
      simp [runHandler, outcomeEffects, htx, submitsOf_annEvs,
        announcesOf_annEvs]
  | some d =>
    rw [htx] at hdeser
    obtain ⟨m, hm⟩ := Option.isSome_iff_exists.mp (by simpa using hdeser)
    have hsub := submit_tx_eq_some hcfg q d m hm
    refine ⟨?_, ?_, ?_, ?_, ?_⟩ <;>
      simp [runHandler, outcomeEffects, htx, hsub, submitsOf_cons,
        submitsOf_append, submitsOf_annEvs, announcesOf_cons,
        announcesOf_append, announcesOf_annEvs]

/-- C6 witness: a concrete both-fields-present outcome followed by a
both-absent outcome, with a failing broadcast to exhibit that the
announcement is not gated on submission success. -/
theorem mm_C6_amended_effects_iff_witness :
    ((⟨some [1, 2], some [[3]]⟩ : AddIntentResult).tx.all
      (fun d => (hcfgBadBroadcast.deser d).isSome) = true) ∧
    (runHandler hcfgBadBroadcast 0
        [⟨some [1, 2], some [[3]]⟩, ⟨none, none⟩]).1 =
      .received ⟨some [1, 2], some [[3]]⟩ ::
        outcomeEffects hcfgBadBroadcast 0 ⟨some [1, 2], some [[3]]⟩ ++
        (runHandler hcfgBadBroadcast
          (0 + if (some [1, 2] : Option Bytes).isSome then 1 else 0)
          [(⟨none, none⟩ : AddIntentResult)]).1 ∧
    (submitsOf (outcomeEffects hcfgBadBroadcast 0
      ⟨some [1, 2], some [[3]]⟩)).length = 1 ∧
    announcesOf (outcomeEffects hcfgBadBroadcast 0
      ⟨some [1, 2], some [[3]]⟩) = [[[3]]] :=
  ⟨by decide,
    (mm_C6_amended_effects_iff hcfgBadBroadcast 0 ⟨some [1, 2], some [[3]]⟩
      [⟨none, none⟩] (by decide)).1,
    (mm_C6_amended_effects_iff hcfgBadBroadcast 0 ⟨some [1, 2], some [[3]]⟩
      [⟨none, none⟩] (by decide)).2.2.1,
    (mm_C6_amended_effects_iff hcfgBadBroadcast 0 ⟨some [1, 2], some [[3]]⟩
      [⟨none, none⟩] (by decide)).2.2.2.1⟩

theorem submit_not_mem_annEvs (w : WrapperTx) (ok : Bool)
    (r : AddIntentResult) : HandlerEffect.submit w ok ∉ annEvs r := by
  cases hm : r.matched_intents <;> simp [annEvs, hm]

/-- C7: every wrapper transaction the pipeline ever broadcasts carries a
fee of zero in the native token (`xan`), the configured signing key (both
on the wrapper and on the inner transaction's signature), a zero gas
limit, the configured transaction code, and embeds an `IntentTransfers`
body whose source is the configured settlement address; and the `k`-th
submission's epoch is the answer to the `(q+k)`-th epoch query — one
fresh synchronous query per submission, no caching. -/
theorem mm_C7_wrapper_tx_fields (hcfg : HandlerConfig)
    (outcomes : List AddIntentResult) (q : Nat) :
    (∀ w ok, HandlerEffect.submit w ok ∈ (runHandler hcfg q outcomes).1 →
      w.fee = { amount := 0, token := xan } ∧
      w.signKey = hcfg.txSigningKey ∧
      w.gasLimit = 0 ∧
      w.innerTx.sigKey = hcfg.txSigningKey ∧
      w.innerTx.tx.code = hcfg.txCode ∧
      ∃ it, w.innerTx.tx.data = some it ∧
        it.source = hcfg.txSourceAddress) ∧
    ∀ k w ok, (submitsOf (runHandler hcfg q outcomes).1).get? k =
        some (w, ok) →
      w.epoch = hcfg.epochAt (q + k) := by
  induction outcomes generalizing q with
  | nil =>
    constructor
    · intro w ok hmem
      simp [runHandler] at hmem
    · intro k w ok hget
      simp [runHandler, submitsOf] at hget
  | cons r rest ih =>
    cases htx : r.tx with
    | none =>
      constructor
      · intro w ok hmem
        simp [runHandler, htx] at hmem
        rcases hmem with hmem | hmem
        · exact absurd hmem (submit_not_mem_annEvs w ok r)
        · exact (ih q).1 w ok hmem
      · intro k w ok hget
        rw [show (runHandler hcfg q (r :: rest)).1 =
            .received r :: annEvs r ++ (runHandler hcfg q rest).1 by
          simp [runHandler, htx]] at hget
        simp only [submitsOf_cons, submitsOf_append, submitsOf_annEvs,
          List.nil_append] at hget
        exact (ih q).2 k w ok hget
    | some d =>
      cases hde : hcfg.deser d with
      | none =>
        have hnone : submit_tx hcfg q d = none := by
          simp [submit_tx, hde]
        constructor
        · intro w ok hmem
          simp [runHandler, htx, hnone] at hmem
        · intro k w ok hget
          rw [show runHandler hcfg q (r :: rest) =
              ([.received r], true) by simp [runHandler, htx, hnone]]
            at hget
          simp [submitsOf] at hget
      | some m =>
        have hsub := submit_tx_eq_some hcfg q d m hde
        constructor
        · intro w ok hmem
          simp [runHandler, htx, hsub] at hmem
          rcases hmem with ⟨hw, -⟩ | hmem | hmem
          · subst hw
            refine ⟨rfl, rfl, rfl, rfl, rfl, ⟨m, hcfg.txSourceAddress⟩,
              rfl, rfl⟩
          · exact absurd hmem (submit_not_mem_annEvs w ok r)
          · exact (ih (q + 1)).1 w ok hmem
        · intro k w ok hget
          rw [show (runHandler hcfg q (r :: rest)).1 =
              .received r :: .submit
                { fee := { amount := 0, token := xan }
                  signKey := hcfg.txSigningKey
                  epoch := hcfg.epochAt q
                  gasLimit := 0
                  innerTx := (Tx.mk hcfg.txCode
                    (some ⟨m, hcfg.txSourceAddress⟩)).sign
                    hcfg.txSigningKey }
                (hcfg.broadcastOk q) :: annEvs r ++
                (runHandler hcfg (q + 1) rest).1 by
            simp [runHandler, htx, hsub]] at hget
          simp only [submitsOf_cons, submitsOf_append, submitsOf_annEvs,
            List.nil_append] at hget
          simp at hget
          cases k with
          | zero =>
            simp at hget
            rw [← hget.1]
            simp
          | succ k =>
            simp at hget
            have := (ih (q + 1)).2 k w ok (by simpa using hget)
            rw [this]
            exact congrArg hcfg.epochAt (by omega)

/-- C7 witness: two concrete transaction-bearing outcomes; the second
submission's epoch is the second query's answer. -/
theorem mm_C7_wrapper_tx_fields_witness :
    (HandlerEffect.submit
        { fee := { amount := 0, token := xan }
          signKey := hcfgOk.txSigningKey
          epoch := hcfgOk.epochAt 0
          gasLimit := 0
          innerTx := (Tx.mk hcfgOk.txCode
            (some ⟨⟨2⟩, hcfgOk.txSourceAddress⟩)).sign hcfgOk.txSigningKey }
        true ∈
      (runHandler hcfgOk 0 [⟨some [1, 2], none⟩, ⟨some [3], none⟩]).1) ∧
    ({ fee := { amount := 0, token := xan }
       signKey := hcfgOk.txSigningKey
       epoch := hcfgOk.epochAt 0
       gasLimit := 0
       innerTx := (Tx.mk hcfgOk.txCode
         (some ⟨⟨2⟩, hcfgOk.txSourceAddress⟩)).sign hcfgOk.txSigningKey }
        : WrapperTx).fee = { amount := 0, token := xan } ∧
    ∃ w ok, (submitsOf (runHandler hcfgOk 0
        [⟨some [1, 2], none⟩, ⟨some [3], none⟩]).1).get? 1 =
        some (w, ok) ∧
      w.epoch = hcfgOk.epochAt (0 + 1) :=
  ⟨by decide,
    ((mm_C7_wrapper_tx_fields hcfgOk
        [⟨some [1, 2], none⟩, ⟨some [3], none⟩] 0).1 _ true (by decide)).1,
    ⟨{ fee := { amount := 0, token := xan }
       signKey := hcfgOk.txSigningKey
       epoch := hcfgOk.epochAt 1
       gasLimit := 0
       innerTx := (Tx.mk hcfgOk.txCode
         (some ⟨⟨1⟩, hcfgOk.txSourceAddress⟩)).sign hcfgOk.txSigningKey },
      true, by decide,
      (mm_C7_wrapper_tx_fields hcfgOk
        [⟨some [1, 2], none⟩, ⟨some [3], none⟩] 0).2 1 _ true (by decide)⟩⟩

/-- C8: per outcome at most one ledger submission attempt is ever made
(for any outcome, whatever its payload); for an outcome whose payload
deserializes, exactly one broadcast attempt occurs — its success flag is
whatever the ledger answers, with no constraint, i.e. a failure is only
recorded (logged), never retried — and the remaining outcomes in the
channel are processed exactly as they would be otherwise: a failed
broadcast for outcome `N` does not prevent outcome `N+1`. -/
theorem mm_C8_one_attempt_no_retry (hcfg : HandlerConfig) (q : Nat)
    (r : AddIntentResult) (rest : List AddIntentResult) (d : Bytes)
    (htx : r.tx = some d) (hde : (hcfg.deser d).isSome = true) :
    (∀ r' q', (submitsOf (outcomeEffects hcfg q' r')).length ≤ 1) ∧
    (submitsOf (outcomeEffects hcfg q r)).length = 1 ∧
    (runHandler hcfg q (r :: rest)).1 =
      .received r :: outcomeEffects hcfg q r ++
        (runHandler hcfg (q + 1) rest).1 ∧
    (runHandler hcfg q (r :: rest)).2 =
      (runHandler hcfg (q + 1) rest).2 := by
  obtain ⟨m, hm⟩ := Option.isSome_iff_exists.mp hde
  have hsub := submit_tx_eq_some hcfg q d m hm
  refine ⟨?_, ?_, ?_, ?_⟩
  · intro r' q'
    cases htx' : r'.tx with
    | none =>
      simp [outcomeEffects, htx', submitsOf_annEvs]
    | some d' =>
      cases hde' : hcfg.deser d' with
      | none =>
        simp [outcomeEffects, htx', submit_tx, hde', submitsOf_annEvs]
      | some m' =>
        simp [outcomeEffects, htx',
          submit_tx_eq_some hcfg q' d' m' hde', submitsOf_cons,
          submitsOf_append, submitsOf_annEvs]
  · simp [outcomeEffects, htx, hsub, submitsOf_cons, submitsOf_append,
      submitsOf_annEvs]
  · simp [runHandler, outcomeEffects, htx, hsub]
  · simp [runHandler, htx, hsub]

/-- C8 witness: a failing broadcast for the first outcome, followed by an
announce-only outcome that is still processed. -/
theorem mm_C8_one_attempt_no_retry_witness :
    (⟨some [1], none⟩ : AddIntentResult).tx = some [1] ∧
    (hcfgBadBroadcast.deser [1]).isSome = true ∧
    (submitsOf (outcomeEffects hcfgBadBroadcast 0
      ⟨some [2, 3], some [[4]]⟩)).length ≤ 1 ∧
    (submitsOf (outcomeEffects hcfgBadBroadcast 0
      ⟨some [1], none⟩)).length = 1 ∧
    (runHandler hcfgBadBroadcast 0
        [(⟨some [1], none⟩ : AddIntentResult), ⟨none, some [[5]]⟩]).1 =
      .received ⟨some [1], none⟩ ::
        outcomeEffects hcfgBadBroadcast 0 ⟨some [1], none⟩ ++
        (runHandler hcfgBadBroadcast (0 + 1)
          [(⟨none, some [[5]]⟩ : AddIntentResult)]).1 :=
  ⟨rfl, rfl,
    (mm_C8_one_attempt_no_retry hcfgBadBroadcast 0 ⟨some [1], none⟩
      [⟨none, some [[5]]⟩] [1] rfl rfl).1 ⟨some [2, 3], some [[4]]⟩ 0,
    (mm_C8_one_attempt_no_retry hcfgBadBroadcast 0 ⟨some [1], none⟩
      [⟨none, some [[5]]⟩] [1] rfl rfl).2.1,
    (mm_C8_one_attempt_no_retry hcfgBadBroadcast 0 ⟨some [1], none⟩
      [⟨none, some [[5]]⟩] [1] rfl rfl).2.2.1⟩
